import Mathlib

/-!
Shallow embedding of `TeltonikaServer/teltonika_parser.py` and proofs of the
specification's claims about it.

Modelling conventions:
  * Python `bytes` is `List Nat` (each element a byte value); `int` is `Nat`
    or `Int` as the source uses it; Python strings are `List Char`.
  * Python slices `data[i:j]` become `(data.drop i).take (j - i)`; indexing
    `data[i]` becomes `List.getD data i 0` — every indexing in the source is
    guarded by a length check, so the default is never consulted.
  * Python `for` loops over ranges and `while` loops are expressed by
    structural recursion on an explicit iteration count computed exactly as
    the source computes the range (so the functions evaluate by `decide`).
  * Python `dict` is an insertion-ordered association list; assignment
    appends, and lookup takes the LAST binding of a key, matching
    overwrite semantics for the operations the source performs.
  * `lon`/`lat` are kept as the raw signed 32-bit integers; the source
    divides them by 10_000_000 in floating point, and no claim depends on
    the quotient.
-/

namespace Teltonika

/-- Constant `MIN_TS_MS`: 2015-01-01T00:00:00Z in milliseconds since the epoch. -/
def MIN_TS_MS : Nat := 1420070400000

/-- Constant `MAX_TS_MS`: 2035-01-01T00:00:00Z in milliseconds since the epoch. -/
def MAX_TS_MS : Nat := 2051222400000

/-- Big-endian `int.from_bytes(raw, "big")`. -/
def bytesToNat (raw : List Nat) : Nat :=
  raw.foldl (fun acc b => acc * 256 + b) 0

/-- Python slice `data[i : i + len]`. -/
def slice (data : List Nat) (i len : Nat) : List Nat :=
  (data.drop i).take len

/-- Python indexing `data[i]` (always used behind a bounds check). -/
def getByte (data : List Nat) (i : Nat) : Nat :=
  data.getD i 0

/-- Source `_to_signed_int(value, bits)`: two's-complement reinterpretation. -/
def toSignedInt (value : Nat) (bits : Nat) : Int :=
  let threshold : Int := 2 ^ (bits - 1)
  let mask : Int := 2 ^ bits
  if (value : Int) ≥ threshold then (value : Int) - mask else (value : Int)

/-- Source `_to_signed(raw, bits)`. -/
def toSigned (raw : List Nat) (bits : Nat) : Int :=
  toSignedInt (bytesToNat raw) bits

/-- Constant `min_len` in `find_timestamp_offset`: 8+1+4+4+2+2+1+2. -/
def minLen : Nat := 8 + 1 + 4 + 4 + 2 + 2 + 1 + 2

/-- Body of the `for offset in range(start, max(len(data) - min_len, 0))`
loop of `find_timestamp_offset`; `fuel` is the number of offsets the range
still contains, so the recursion follows the source loop exactly. -/
def findLoop (data : List Nat) : Nat → Nat → Option Nat
  | _, 0 => none
  | offset, fuel + 1 =>
    let window := slice data offset 8
    if window.length < 8 then none
    else
      let ts := bytesToNat window
      if ¬ (MIN_TS_MS ≤ ts ∧ ts ≤ MAX_TS_MS) then findLoop data (offset + 1) fuel
      else if offset + 9 ≥ data.length then findLoop data (offset + 1) fuel
      else
        let priority := getByte data (offset + 8)
        let satPos := offset + 8 + 1 + 4 + 4 + 2 + 2
        if priority > 3 then findLoop data (offset + 1) fuel
        else if satPos < data.length ∧ getByte data satPos > 32 then
          findLoop data (offset + 1) fuel
        else some offset

/-- Source `find_timestamp_offset(data, start)`. -/
def find_timestamp_offset (data : List Nat) (start : Nat) : Option Nat :=
  findLoop data start (max (data.length - minLen) 0 - start)

/-- Constant `ACCEL_IO_IDS`: IO ids of the accelerometer axes, paired with the axis. -/
def ACCEL_IO_IDS : List (Nat × Char) := [(0x0011, 'x'), (0x0012, 'y'), (0x0013, 'z')]

/-- Python dict of `int → int`, as the ordered list of assignments made to it;
lookup takes the last assignment of a key. -/
def dictGet (d : List (Nat × Nat)) (k : Nat) : Option Nat :=
  (d.reverse.find? (fun p => p.1 == k)).map (·.2)

/-- Lookup in `groups` (a dict keyed by width; each width assigned at most
once, so first match suffices). -/
def groupGet (groups : List (Nat × List (Nat × Nat))) (size : Nat) :
    Option (List (Nat × Nat)) :=
  (groups.find? (fun p => p.1 == size)).map (·.2)

/-- The inner `for _ in range(count)` loop of the IO-group parser: reads
`count` (2-byte id, `size`-byte value) pairs starting at `ptr`, accumulating
dict assignments in order. Returns the entries and the advanced cursor. -/
def readEntries (data : List Nat) (size : Nat) :
    Nat → Nat → List (Nat × Nat) → List (Nat × Nat) × Nat
  | 0, ptr, acc => (acc, ptr)
  | count + 1, ptr, acc =>
    let ioId := bytesToNat (slice data ptr 2)
    let value := bytesToNat (slice data (ptr + 2) size)
    readEntries data size count (ptr + 2 + size) (acc ++ [(ioId, value)])

/-- The `for size in (1, 2, 4, 8)` loop of `read_record`: parses the four
width groups starting at `ptr`, returning the groups dict and the cursor. -/
def parseGroups (data : List Nat) :
    List Nat → Nat → List (Nat × List (Nat × Nat)) →
    List (Nat × List (Nat × Nat)) × Nat
  | [], ptr, groups => (groups, ptr)
  | size :: rest, ptr, groups =>
    if data.length - ptr < 2 then (groups, ptr)
    else
      let count := bytesToNat (slice data ptr 2)
      let ptr := ptr + 2
      if count = 0 then parseGroups data rest ptr groups
      else
        let needed := count * (2 + size)
        if data.length - ptr < needed then (groups, data.length)
        else
          let ep := readEntries data size count ptr []
          parseGroups data rest ep.2
            (if ep.1 = [] then groups else groups ++ [(size, ep.1)])

/-- The accelerometer-extraction loop body of `read_record` for one IO id:
prefer the 2-byte group (signed 16-bit), fall back to the 1-byte group
(signed 8-bit), else absent. -/
def accelFor (groups : List (Nat × List (Nat × Nat))) (ioId : Nat) : Option Int :=
  match (groupGet groups 2).bind (fun e => dictGet e ioId) with
  | some v => some (toSignedInt v 16)
  | none =>
    match (groupGet groups 1).bind (fun e => dictGet e ioId) with
    | some v => some (toSignedInt v 8)
    | none => none

/-- Structure `AvlRecord` (the fields `read_record` fills; `lon`/`lat` kept as the raw
signed integers the source divides by 1e7, and the `accel` dict flattened to
its three keys). -/
structure AvlRecord where
  timestamp_ms : Nat
  priority : Nat
  lon : Int
  lat : Int
  altitude : Int
  angle : Nat
  satellites : Nat
  speed : Nat
  accelX : Option Int
  accelY : Option Int
  accelZ : Option Int
deriving Repr, DecidableEq

/-- Source `read_record(data, ts_offset)`. -/
def read_record (data : List Nat) (ts_offset : Nat) : Option AvlRecord × Nat :=
  if data.length - ts_offset < 32 then (none, ts_offset + 1)
  else
    let ts := bytesToNat (slice data ts_offset 8)
    if ¬ (MIN_TS_MS ≤ ts ∧ ts ≤ MAX_TS_MS) then (none, ts_offset + 1)
    else
      let priority := getByte data (ts_offset + 8)
      let lon := toSigned (slice data (ts_offset + 9) 4) 32
      let lat := toSigned (slice data (ts_offset + 13) 4) 32
      let altitude := toSigned (slice data (ts_offset + 17) 2) 16
      let angle := bytesToNat (slice data (ts_offset + 19) 2)
      let sats := getByte data (ts_offset + 21)
      let speed := bytesToNat (slice data (ts_offset + 22) 2)
      if data.length - (ts_offset + 24) < 4 then (none, ts_offset + 1)
      else
        let total_io := bytesToNat (slice data (ts_offset + 26) 2)
        if total_io > 256 then (none, ts_offset + 1)
        else
          let gp := parseGroups data [1, 2, 4, 8] (ts_offset + 28) []
          (some
            { timestamp_ms := ts
              priority := priority
              lon := lon
              lat := lat
              altitude := altitude
              angle := angle
              satellites := sats
              speed := speed
              accelX := accelFor gp.1 0x0011
              accelY := accelFor gp.1 0x0012
              accelZ := accelFor gp.1 0x0013 }, gp.2)

/-- Constant `HEX_DELIMITER`, the string "59D90010". -/
def HEX_DELIMITER : List Char := ['5', '9', 'D', '9', '0', '0', '1', '0']

/-- Characters removed by Python `str.strip()` (the ASCII whitespace set,
given here by character code: space, tab, newline, carriage return,
vertical tab, form feed; the source only ever receives ASCII hex text). -/
def isPySpace (c : Char) : Bool :=
  c.toNat = 32 || c.toNat = 9 || c.toNat = 10 ||
    c.toNat = 13 || c.toNat = 11 || c.toNat = 12

/-- Python `s.strip()`. -/
def pyStrip (s : List Char) : List Char :=
  ((s.dropWhile isPySpace).reverse.dropWhile isPySpace).reverse

/-- Python `s.upper()` (ASCII). -/
def pyUpper (s : List Char) : List Char :=
  s.map Char.toUpper

/-- Python `clean.split(HEX_DELIMITER)`: split on leftmost non-overlapping
occurrences of the delimiter `"59D90010"` (matched literally so the
recursion is structural); `acc` holds the current fragment reversed. -/
def splitSeg : List Char → List Char → List (List Char)
  | '5' :: '9' :: 'D' :: '9' :: '0' :: '0' :: '1' :: '0' :: rest, acc =>
    acc.reverse :: splitSeg rest []
  | c :: rest, acc => splitSeg rest (c :: acc)
  | [], acc => [acc.reverse]

/-- Value of one hex digit, as `bytes.fromhex` accepts it (by character
code: digits 48–57, uppercase 65–70, lowercase 97–102). -/
def hexVal (c : Char) : Option Nat :=
  let n := c.toNat
  if 48 ≤ n ∧ n ≤ 57 then some (n - 48)
  else if 65 ≤ n ∧ n ≤ 70 then some (n - 55)
  else if 97 ≤ n ∧ n ≤ 102 then some (n - 87)
  else none

/-- Python `bytes.fromhex(part)`: pairs of hex digits, `none` on any other
character (the builtin's tolerance for ASCII spaces between bytes is not
modelled; segments here are contiguous hex fragments). -/
def fromHex : List Char → Option (List Nat)
  | [] => some []
  | [_] => none
  | c1 :: c2 :: rest =>
    match hexVal c1, hexVal c2, fromHex rest with
    | some hi, some lo, some bs => some ((hi * 16 + lo) :: bs)
    | _, _, _ => none

/-- One iteration of the `for part in clean.split(...)` loop of
`iter_segments`: skip empty fragments, truncate an odd trailing digit,
drop fragments `bytes.fromhex` rejects, otherwise yield the bytes. -/
def processFragment (part : List Char) : Option (List Nat) :=
  if part = [] then none
  else fromHex (if part.length % 2 ≠ 0 then part.dropLast else part)

/-- Source `iter_segments(raw_hex)` (the generator, materialised as a list). -/
def iter_segments (raw : List Char) : List (List Nat) :=
  let clean := pyUpper (pyStrip raw)
  if clean = [] then []
  else (splitSeg clean []).filterMap processFragment

/-- The `while pos < len(segment)` loop of `parse_avl_data` over one
segment; `fuel` bounds the number of iterations. The cursor strictly
increases each iteration (proved below), so `segment.length - pos`
iterations always suffice and the fuel never runs out before the loop's
own exit conditions fire. -/
def parseLoop (segment : List Nat) : Nat → Nat → List AvlRecord
  | _, 0 => []
  | pos, fuel + 1 =>
    if pos < segment.length then
      match find_timestamp_offset segment pos with
      | none => []
      | some tsOffset =>
        match read_record segment tsOffset with
        | (none, _) => parseLoop segment (tsOffset + 1) fuel
        | (some rec, nextPos) =>
          rec :: parseLoop segment (max nextPos (tsOffset + 1)) fuel
    else []

/-- Source `parse_avl_data(raw_hex)`. -/
def parse_avl_data (raw : List Char) : List AvlRecord :=
  (iter_segments raw).flatMap (fun segment => parseLoop segment 0 segment.length)

/-- The 8-byte big-endian candidate timestamp at `o` (the value both
`find_timestamp_offset` and `read_record` decode there). -/
def tsAt (data : List Nat) (o : Nat) : Nat :=
  bytesToNat (slice data o 8)

/-- The 2-byte total-IO count `read_record` decodes at `o + 26`. -/
def totalIoAt (data : List Nat) (o : Nat) : Nat :=
  bytesToNat (slice data (o + 26) 2)

/-- All per-offset acceptance checks of one `find_timestamp_offset` loop
iteration: full 8-byte window, timestamp in the plausibility window, a
priority byte in bounds and ≤ 3, and a satellites byte that is absent or
≤ 32. -/
def candOk (data : List Nat) (o : Nat) : Prop :=
  ¬ (slice data o 8).length < 8 ∧
  MIN_TS_MS ≤ tsAt data o ∧ tsAt data o ≤ MAX_TS_MS ∧
  ¬ o + 9 ≥ data.length ∧
  ¬ getByte data (o + 8) > 3 ∧
  ¬ (o + 8 + 1 + 4 + 4 + 2 + 2 < data.length ∧
     getByte data (o + 8 + 1 + 4 + 4 + 2 + 2) > 32)

instance (data : List Nat) (o : Nat) : Decidable (candOk data o) := by
  unfold candOk
  infer_instance

/-- The groups dict `read_record` builds for the record at `o`. -/
def recGroups (data : List Nat) (o : Nat) : List (Nat × List (Nat × Nat)) :=
  (parseGroups data [1, 2, 4, 8] (o + 28) []).1

/-- Whether the IO-group loop starting at `ptr` hits the truncated-tail
branch (a group declares a nonzero count needing more bytes than remain):
the same walk as `parseGroups`, reporting which exit is taken. -/
def groupsTruncate (data : List Nat) : List Nat → Nat → Bool
  | [], _ => false
  | size :: rest, ptr =>
    if data.length - ptr < 2 then false
    else
      let count := bytesToNat (slice data ptr 2)
      if count = 0 then groupsTruncate data rest (ptr + 2)
      else if data.length - (ptr + 2) < count * (2 + size) then true
      else groupsTruncate data rest ((readEntries data size count (ptr + 2) []).2)

/-- The cursor value after one iteration of the `parse_avl_data` segment
loop starting at `pos` (`none` when the loop exits because the locator
found nothing). -/
def nextCursor (segment : List Nat) (pos : Nat) : Option Nat :=
  match find_timestamp_offset segment pos with
  | none => none
  | some tsOffset =>
    match read_record segment tsOffset with
    | (none, _) => some (tsOffset + 1)
    | (some _, nextPos) => some (max nextPos (tsOffset + 1))

/-- Eight timestamp bytes decoding to `0x018000000000` ms, a value inside the
plausibility window. -/
def tsBytes : List Nat := [0, 0, 1, 128, 0, 0, 0, 0]

/-- A 24-byte buffer that is a fully valid minimal frame start at offset 0
(valid timestamp, priority 0, satellites 0). -/
def buf24 : List Nat := tsBytes ++ List.replicate 16 0

/-- A 25-byte buffer: valid frame start at offset 0, within the locator's
scan range, but with fewer than the decoder's 32-byte minimum remaining. -/
def buf25 : List Nat := tsBytes ++ List.replicate 17 0

/-- A 36-byte buffer holding one complete record with four empty IO
groups. -/
def buf36 : List Nat := tsBytes ++ List.replicate 28 0

/-- A 32-byte buffer whose 1-byte IO group declares count 5 with only two
bytes remaining: the truncated-group path of `read_record`. -/
def bufTrunc : List Nat :=
  tsBytes ++ List.replicate 16 0 ++ [0, 0] ++ [0, 1] ++ [0, 5] ++ [0, 0]

/-- A 43-byte buffer whose IO section carries accelerometer id `0x0011` in
both the 1-byte group (value `0x85`) and the 2-byte group (value
`0x8000`). -/
def bufAccel : List Nat :=
  tsBytes ++ List.replicate 16 0 ++ [0, 0] ++ [0, 2] ++
    [0, 1] ++ [0, 0x11, 0x85] ++
    [0, 1] ++ [0, 0x11, 0x80, 0x00] ++
    [0, 0] ++ [0, 0]

/-- A 72-character hex input (one 36-byte segment: the bytes of `buf36`). -/
def hex72 : List Char := "0000018000000000".toList ++ List.replicate 56 '0'

/-- The record `parse_avl_data` extracts from `hex72`. -/
def rec36 : AvlRecord :=
  { timestamp_ms := 0x018000000000, priority := 0, lon := 0, lat := 0,
    altitude := 0, angle := 0, satellites := 0, speed := 0,
    accelX := none, accelY := none, accelZ := none }

/-- The record `read_record` decodes from `bufAccel` at offset 0. -/
def recAccel : AvlRecord :=
  { timestamp_ms := 0x018000000000, priority := 0, lon := 0, lat := 0,
    altitude := 0, angle := 0, satellites := 0, speed := 0,
    accelX := some (-32768), accelY := none, accelZ := none }

end Teltonika

namespace Teltonika

lemma slice_length (data : List Nat) (i l : Nat) :
    (slice data i l).length = min l (data.length - i) := by
  simp [slice]

lemma findLoop_some_spec {data : List Nat} :
    ∀ {fuel offset o}, findLoop data offset fuel = some o →
      offset ≤ o ∧ o < offset + fuel ∧ candOk data o := by
  intro fuel
  induction fuel with
  | zero => intro offset o h; exact Option.noConfusion h
  | succ n ih =>
    intro offset o h
    simp only [findLoop] at h
    split_ifs at h with c1 c2 c3 c4 c5 <;>
      first
      | exact Option.noConfusion h
      | (rcases ih h with ⟨h1, h2, h3⟩
         exact ⟨by omega, by omega, h3⟩)
      | (have ho : offset = o := Option.some.inj h
         subst ho
         exact ⟨le_refl _, by omega, c1, c2.1, c2.2, c3, c4, c5⟩)

lemma findLoop_none_spec {data : List Nat} :
    ∀ {fuel offset}, findLoop data offset fuel = none →
      ∀ k, k < fuel → ¬ candOk data (offset + k) := by
  intro fuel
  induction fuel with
  | zero => intro offset _ k hk; exact absurd hk (Nat.not_lt_zero k)
  | succ n ih =>
    intro offset h k hk
    simp only [findLoop] at h
    split_ifs at h with c1 c2 c3 c4 c5 <;>
      first
      | exact Option.noConfusion h
      | (intro hc
         rcases hc with ⟨hw, -⟩
         have e1 := slice_length data offset 8
         have e2 := slice_length data (offset + k) 8
         omega)
      | (rcases Nat.eq_zero_or_pos k with hk0 | hkpos
         · subst hk0
           rw [Nat.add_zero]
           intro hc
           first
           | exact c2 ⟨hc.2.1, hc.2.2.1⟩
           | exact hc.2.2.2.1 c3
           | exact hc.2.2.2.2.1 c4
           | exact hc.2.2.2.2.2 c5
         · have := ih h (k - 1) (by omega)
           have e : offset + 1 + (k - 1) = offset + k := by omega
           rwa [e] at this)

lemma find_some_spec {data : List Nat} {start o : Nat}
    (h : find_timestamp_offset data start = some o) :
    start ≤ o ∧ o + 25 ≤ data.length ∧ candOk data o := by
  unfold find_timestamp_offset at h
  rcases findLoop_some_spec h with ⟨h1, h2, h3⟩
  have hm : minLen = 24 := rfl
  rw [Nat.max_zero] at h2
  exact ⟨h1, by omega, h3⟩

lemma find_none_spec {data : List Nat} {start : Nat}
    (h : find_timestamp_offset data start = none) :
    ∀ o, start ≤ o → o + 25 ≤ data.length → ¬ candOk data o := by
  intro o h1 h2
  unfold find_timestamp_offset at h
  have hm : minLen = 24 := rfl
  have hk : o - start < max (data.length - minLen) 0 - start := by
    rw [Nat.max_zero]
    omega
  have := findLoop_none_spec h (o - start) hk
  rwa [Nat.add_sub_cancel' h1] at this

lemma find_short {data : List Nat} (h : data.length < 25) (start : Nat) :
    find_timestamp_offset data start = none := by
  unfold find_timestamp_offset
  have hz : max (data.length - minLen) 0 - start = 0 := by
    have hm : minLen = 24 := rfl
    rw [Nat.max_zero]
    omega
  rw [hz]
  rfl

lemma read_record_none_iff (data : List Nat) (o : Nat) :
    (read_record data o).1 = none ↔
      data.length - o < 32 ∨
      ¬ (MIN_TS_MS ≤ tsAt data o ∧ tsAt data o ≤ MAX_TS_MS) ∨
      256 < totalIoAt data o := by
  simp only [read_record, tsAt, totalIoAt]
  split_ifs <;> simp <;> omega

lemma read_record_none_next {data : List Nat} {o : Nat}
    (h : (read_record data o).1 = none) :
    (read_record data o).2 = o + 1 := by
  simp only [read_record] at h ⊢
  split_ifs at h ⊢ <;> rfl

lemma read_record_some_spec {data : List Nat} {o : Nat} {rec : AvlRecord}
    (h : (read_record data o).1 = some rec) :
    32 ≤ data.length - o ∧
    MIN_TS_MS ≤ tsAt data o ∧ tsAt data o ≤ MAX_TS_MS ∧
    totalIoAt data o ≤ 256 ∧
    (read_record data o).2 = (parseGroups data [1, 2, 4, 8] (o + 28) []).2 ∧
    rec = { timestamp_ms := tsAt data o
            priority := getByte data (o + 8)
            lon := toSigned (slice data (o + 9) 4) 32
            lat := toSigned (slice data (o + 13) 4) 32
            altitude := toSigned (slice data (o + 17) 2) 16
            angle := bytesToNat (slice data (o + 19) 2)
            satellites := getByte data (o + 21)
            speed := bytesToNat (slice data (o + 22) 2)
            accelX := accelFor (recGroups data o) 0x0011
            accelY := accelFor (recGroups data o) 0x0012
            accelZ := accelFor (recGroups data o) 0x0013 } := by
  simp only [read_record] at h ⊢
  split_ifs at h ⊢ with c1 c2 c3 c4
  injection h with h'
  refine ⟨by omega, ?_, ?_, ?_, rfl, ?_⟩
  · simp only [tsAt]
    omega
  · simp only [tsAt]
    omega
  · simp only [totalIoAt]
    omega
  · exact h'.symm

lemma parseGroups_truncate {data : List Nat} :
    ∀ {sizes : List Nat} {ptr : Nat} {groups : List (Nat × List (Nat × Nat))},
      groupsTruncate data sizes ptr = true →
      (parseGroups data sizes ptr groups).2 = data.length := by
  intro sizes
  induction sizes with
  | nil => intro ptr groups h; exact absurd h (by simp [groupsTruncate])
  | cons size rest ih =>
    intro ptr groups h
    by_cases c1 : data.length - ptr < 2
    · simp [groupsTruncate, c1] at h
    · by_cases c2 : bytesToNat (slice data ptr 2) = 0
      · simp only [groupsTruncate, if_neg c1, if_pos c2] at h
        simp only [parseGroups, if_neg c1, if_pos c2]
        exact ih h
      · by_cases c3 : data.length - (ptr + 2) <
            bytesToNat (slice data ptr 2) * (2 + size)
        · simp only [parseGroups, if_neg c1, if_neg c2, if_pos c3]
        · simp only [groupsTruncate, if_neg c1, if_neg c2, if_neg c3] at h
          simp only [parseGroups, if_neg c1, if_neg c2, if_neg c3]
          exact ih h

lemma accelFor_pref2 {gs : List (Nat × List (Nat × Nat))} {ioId v : Nat}
    (h : (groupGet gs 2).bind (fun e => dictGet e ioId) = some v) :
    accelFor gs ioId = some (toSignedInt v 16) := by
  unfold accelFor
  rw [h]

lemma accelFor_fall1 {gs : List (Nat × List (Nat × Nat))} {ioId v : Nat}
    (h2 : (groupGet gs 2).bind (fun e => dictGet e ioId) = none)
    (h1 : (groupGet gs 1).bind (fun e => dictGet e ioId) = some v) :
    accelFor gs ioId = some (toSignedInt v 8) := by
  unfold accelFor
  rw [h2, h1]

lemma accelFor_absent {gs : List (Nat × List (Nat × Nat))} {ioId : Nat}
    (h2 : (groupGet gs 2).bind (fun e => dictGet e ioId) = none)
    (h1 : (groupGet gs 1).bind (fun e => dictGet e ioId) = none) :
    accelFor gs ioId = none := by
  unfold accelFor
  rw [h2, h1]

lemma accelFor_congr {gs gs' : List (Nat × List (Nat × Nat))} (ioId : Nat)
    (h1 : groupGet gs 1 = groupGet gs' 1) (h2 : groupGet gs 2 = groupGet gs' 2) :
    accelFor gs ioId = accelFor gs' ioId := by
  unfold accelFor
  rw [h1, h2]

lemma read_record_fields {data : List Nat} {o : Nat} {rec : AvlRecord}
    (h : (read_record data o).1 = some rec) :
    rec.timestamp_ms = tsAt data o ∧
    rec.priority = getByte data (o + 8) ∧
    rec.satellites = getByte data (o + 21) ∧
    rec.accelX = accelFor (recGroups data o) 0x0011 ∧
    rec.accelY = accelFor (recGroups data o) 0x0012 ∧
    rec.accelZ = accelFor (recGroups data o) 0x0013 := by
  rcases read_record_some_spec h with ⟨-, -, -, -, -, heq⟩
  subst heq
  exact ⟨rfl, rfl, rfl, rfl, rfl, rfl⟩

lemma parseLoop_bounds {segment : List Nat} :
    ∀ {fuel pos : Nat} {rec : AvlRecord}, rec ∈ parseLoop segment pos fuel →
      MIN_TS_MS ≤ rec.timestamp_ms ∧ rec.timestamp_ms ≤ MAX_TS_MS ∧
      rec.priority ≤ 3 ∧ rec.satellites ≤ 32 := by
  intro fuel
  induction fuel with
  | zero => intro pos rec h; exact absurd h (by simp [parseLoop])
  | succ n ih =>
    intro pos rec h
    simp only [parseLoop] at h
    split_ifs at h with hpos
    · split at h
      next => exact absurd h (by simp)
      next o hf =>
        split at h
        next => exact ih h
        next r np hr =>
          rcases find_some_spec hf with ⟨hso, hlen, hcand⟩
          rcases List.mem_cons.mp h with hh | hh
          · subst hh
            have hrr : (read_record segment o).1 = some rec := by rw [hr]
            rcases read_record_some_spec hrr with ⟨-, hts1, hts2, -, -, heq⟩
            rcases hcand with ⟨-, -, -, -, hprio, hsat⟩
            have e : o + 8 + 1 + 4 + 4 + 2 + 2 = o + 21 := by omega
            rw [e] at hsat
            subst heq
            refine ⟨hts1, hts2, ?_, ?_⟩
            · show getByte segment (o + 8) ≤ 3
              omega
            · show getByte segment (o + 21) ≤ 32
              omega
          · exact ih hh
    · exact absurd h (by simp)

/-- C1: for every input hex string, every `AvlRecord` in the list returned
by `parse_avl_data` has `MIN_TS_MS ≤ timestamp_ms ≤ MAX_TS_MS` (both bounds
inclusive), `priority` in {0,1,2,3}, and `satellites ≤ 32`: records are
only decoded at offsets accepted by `find_timestamp_offset`, whose checks
bound priority and satellites even though `read_record` re-checks only the
timestamp. -/
theorem claim_C1 (raw : List Char) (rec : AvlRecord)
    (h : rec ∈ parse_avl_data raw) :
    MIN_TS_MS ≤ rec.timestamp_ms ∧ rec.timestamp_ms ≤ MAX_TS_MS ∧
    rec.priority ≤ 3 ∧ rec.satellites ≤ 32 := by
  simp only [parse_avl_data, List.mem_flatMap] at h
  rcases h with ⟨seg, -, hm⟩
  exact parseLoop_bounds hm

/-- Witness for C1 at the concrete hex input `hex72`, whose single decoded
record is `rec36`. -/
theorem claim_C1_witness :
    MIN_TS_MS ≤ rec36.timestamp_ms ∧ rec36.timestamp_ms ≤ MAX_TS_MS ∧
    rec36.priority ≤ 3 ∧ rec36.satellites ≤ 32 :=
  claim_C1 hex72 rec36 (by decide)

/-- C2: `read_record data o` returns no record exactly when the remaining
bytes are below the decoder's minimum (32), the candidate timestamp is
outside `[MIN_TS_MS, MAX_TS_MS]`, or the total-IO count exceeds 256; in
every failure case the returned next offset is `o + 1`, and in every
non-failure case a record is returned. -/
theorem claim_C2 (data : List Nat) (o : Nat) :
    ((read_record data o).1 = none ↔
      data.length - o < 32 ∨
      ¬ (MIN_TS_MS ≤ tsAt data o ∧ tsAt data o ≤ MAX_TS_MS) ∨
      256 < totalIoAt data o) ∧
    ((read_record data o).1 = none → (read_record data o).2 = o + 1) :=
  ⟨read_record_none_iff data o, fun h => read_record_none_next h⟩

/-- Witness for C2 at the empty buffer: the failure case fires and the next
offset is one past the candidate offset. -/
theorem claim_C2_witness :
    (read_record [] 0).1 = none ∧ (read_record [] 0).2 = 0 + 1 := by
  have h := claim_C2 [] 0
  have hn : (read_record [] 0).1 = none := h.1.mpr (Or.inl (by decide))
  exact ⟨hn, h.2 hn⟩

/-- Counterexample to C3 as stated: `buf24` is a 24-byte buffer whose
offset 0 passes every candidate check (so at least `min_len = 24` bytes
remain there), yet the locator returns no match — the loop's exclusive
upper bound skips the offset at which exactly 24 bytes remain. -/
theorem claim_C3_counterexample :
    buf24.length = 24 ∧ candOk buf24 0 ∧
    find_timestamp_offset buf24 0 = none := by
  decide

/-- C3 (amended): the locator stops scanning once fewer than 25 bytes
remain at the candidate offset (the `range` bound is exclusive, so the
offset with exactly `min_len = 24` remaining bytes is never examined);
every offset at or after `start` with at least 25 remaining bytes is
considered, and every buffer shorter than 25 bytes yields no match from
any start offset. -/
theorem claim_C3_amended (data : List Nat) (start : Nat) :
    (data.length < 25 → find_timestamp_offset data start = none) ∧
    (∀ o, find_timestamp_offset data start = some o →
      start ≤ o ∧ o + 25 ≤ data.length ∧ candOk data o) ∧
    (find_timestamp_offset data start = none →
      ∀ o, start ≤ o → o + 25 ≤ data.length → ¬ candOk data o) :=
  ⟨fun h => find_short h start, fun _ h => find_some_spec h,
   fun h => find_none_spec h⟩

/-- Witness for C3 (amended): the empty buffer gives no match, and `buf25`
has a considered, accepted candidate at offset 0 with exactly 25 bytes
remaining. -/
theorem claim_C3_witness :
    find_timestamp_offset [] 0 = none ∧
    (0 ≤ 0 ∧ 0 + 25 ≤ buf25.length ∧ candOk buf25 0) :=
  ⟨(claim_C3_amended [] 0).1 (by decide),
   (claim_C3_amended buf25 0).2.1 0 (by decide)⟩

/-- Counterexample to C4 as stated: on `buf25` the Frame Locator returns
offset 0, yet `read_record` fails there, precisely because fewer than 32
bytes remain — the insufficient-remaining-bytes early return is reachable
for locator-returned offsets. -/
theorem claim_C4_counterexample :
    find_timestamp_offset buf25 0 = some 0 ∧
    (read_record buf25 0).1 = none ∧ buf25.length - 0 < 32 := by
  decide

/-- C4 (amended): an offset returned by `find_timestamp_offset` has at
least 25 trailing bytes — but the decoder's initial check requires 32, so
`read_record` at a locator-returned offset fails exactly when fewer than
32 bytes remain or the total-IO count exceeds 256; only the decoder's
timestamp re-check is unreachable for locator offsets. -/
theorem claim_C4_amended (data : List Nat) (start o : Nat)
    (h : find_timestamp_offset data start = some o) :
    25 ≤ data.length - o ∧
    ((read_record data o).1 = none ↔
      data.length - o < 32 ∨ 256 < totalIoAt data o) := by
  rcases find_some_spec h with ⟨-, hlen, hcand⟩
  rcases hcand with ⟨-, hts1, hts2, -, -, -⟩
  refine ⟨by omega, ?_⟩
  rw [read_record_none_iff]
  constructor
  · rintro (h1 | h2 | h3)
    · exact Or.inl h1
    · exact absurd ⟨hts1, hts2⟩ h2
    · exact Or.inr h3
  · rintro (h1 | h3)
    · exact Or.inl h1
    · exact Or.inr (Or.inr h3)

/-- Witness for C4 (amended) at `buf36`, where the locator returns
offset 0. -/
theorem claim_C4_witness :
    25 ≤ buf36.length - 0 ∧
    ((read_record buf36 0).1 = none ↔
      buf36.length - 0 < 32 ∨ 256 < totalIoAt buf36 0) :=
  claim_C4_amended buf36 0 0 (by decide)

/-- C5: when the record at `o` passes the decoder's initial checks and its
IO-group section declares, for some width group with nonzero count, a
count needing more bytes than remain, `read_record` abandons that group
and all later groups but still returns a record carrying the
already-decoded GPS fields, reports the end of the segment as the next
offset, and every accelerometer axis whose IO id is absent from the parsed
1- and 2-byte groups is `none` rather than an error or zero. -/
theorem claim_C5 (data : List Nat) (o : Nat)
    (h1 : 32 ≤ data.length - o)
    (h2 : MIN_TS_MS ≤ tsAt data o ∧ tsAt data o ≤ MAX_TS_MS)
    (h3 : totalIoAt data o ≤ 256)
    (h4 : groupsTruncate data [1, 2, 4, 8] (o + 28) = true) :
    (read_record data o).2 = data.length ∧
    ∃ rec, (read_record data o).1 = some rec ∧
      rec.timestamp_ms = tsAt data o ∧
      rec.priority = getByte data (o + 8) ∧
      rec.lon = toSigned (slice data (o + 9) 4) 32 ∧
      rec.lat = toSigned (slice data (o + 13) 4) 32 ∧
      rec.altitude = toSigned (slice data (o + 17) 2) 16 ∧
      rec.angle = bytesToNat (slice data (o + 19) 2) ∧
      rec.satellites = getByte data (o + 21) ∧
      rec.speed = bytesToNat (slice data (o + 22) 2) ∧
      ((groupGet (recGroups data o) 2).bind (fun e => dictGet e 0x0011) = none →
        (groupGet (recGroups data o) 1).bind (fun e => dictGet e 0x0011) = none →
        rec.accelX = none) ∧
      ((groupGet (recGroups data o) 2).bind (fun e => dictGet e 0x0012) = none →
        (groupGet (recGroups data o) 1).bind (fun e => dictGet e 0x0012) = none →
        rec.accelY = none) ∧
      ((groupGet (recGroups data o) 2).bind (fun e => dictGet e 0x0013) = none →
        (groupGet (recGroups data o) 1).bind (fun e => dictGet e 0x0013) = none →
        rec.accelZ = none) := by
  have hnone : ¬ (read_record data o).1 = none := by
    rw [read_record_none_iff]
    rintro (hc | hc | hc)
    · omega
    · exact hc h2
    · omega
  cases hrec : (read_record data o).1 with
  | none => exact absurd hrec hnone
  | some rec =>
    rcases read_record_some_spec hrec with ⟨-, -, -, -, hnext, heq⟩
    refine ⟨?_, rec, rfl, ?_⟩
    · rw [hnext]
      exact parseGroups_truncate h4
    · subst heq
      refine ⟨rfl, rfl, rfl, rfl, rfl, rfl, rfl, rfl, ?_, ?_, ?_⟩ <;>
        (intro ha hb
         exact accelFor_absent ha hb)

/-- Witness for C5 at `bufTrunc`, whose 1-byte IO group declares count 5
with only two bytes remaining. -/
theorem claim_C5_witness :
    (read_record bufTrunc 0).2 = bufTrunc.length ∧
    ∃ rec, (read_record bufTrunc 0).1 = some rec ∧
      rec.timestamp_ms = tsAt bufTrunc 0 ∧
      rec.priority = getByte bufTrunc 8 ∧
      rec.lon = toSigned (slice bufTrunc 9 4) 32 ∧
      rec.lat = toSigned (slice bufTrunc 13 4) 32 ∧
      rec.altitude = toSigned (slice bufTrunc 17 2) 16 ∧
      rec.angle = bytesToNat (slice bufTrunc 19 2) ∧
      rec.satellites = getByte bufTrunc 21 ∧
      rec.speed = bytesToNat (slice bufTrunc 22 2) ∧
      ((groupGet (recGroups bufTrunc 0) 2).bind (fun e => dictGet e 0x0011) = none →
        (groupGet (recGroups bufTrunc 0) 1).bind (fun e => dictGet e 0x0011) = none →
        rec.accelX = none) ∧
      ((groupGet (recGroups bufTrunc 0) 2).bind (fun e => dictGet e 0x0012) = none →
        (groupGet (recGroups bufTrunc 0) 1).bind (fun e => dictGet e 0x0012) = none →
        rec.accelY = none) ∧
      ((groupGet (recGroups bufTrunc 0) 2).bind (fun e => dictGet e 0x0013) = none →
        (groupGet (recGroups bufTrunc 0) 1).bind (fun e => dictGet e 0x0013) = none →
        rec.accelZ = none) := by
  have h := claim_C5 bufTrunc 0 (by decide) (by decide) (by decide) (by decide)
  simpa using h

/-- C6: in a decoded record the three accelerometer axes come from
`accelFor` applied to the record's parsed groups, and `accelFor` prefers
the 2-byte group (signed 16-bit) even when the id is also in the 1-byte
group, falls back to the 1-byte group (signed 8-bit), yields the distinct
absent value `none` when the id is in neither, and never consults any
group other than the 1- and 2-byte ones. -/
theorem claim_C6 (data : List Nat) (o : Nat) (rec : AvlRecord)
    (h : (read_record data o).1 = some rec) :
    (rec.accelX = accelFor (recGroups data o) 0x0011 ∧
     rec.accelY = accelFor (recGroups data o) 0x0012 ∧
     rec.accelZ = accelFor (recGroups data o) 0x0013) ∧
    (∀ gs : List (Nat × List (Nat × Nat)), ∀ ioId v : Nat,
      (groupGet gs 2).bind (fun e => dictGet e ioId) = some v →
      accelFor gs ioId = some (toSignedInt v 16)) ∧
    (∀ gs : List (Nat × List (Nat × Nat)), ∀ ioId v : Nat,
      (groupGet gs 2).bind (fun e => dictGet e ioId) = none →
      (groupGet gs 1).bind (fun e => dictGet e ioId) = some v →
      accelFor gs ioId = some (toSignedInt v 8)) ∧
    (∀ gs : List (Nat × List (Nat × Nat)), ∀ ioId : Nat,
      (groupGet gs 2).bind (fun e => dictGet e ioId) = none →
      (groupGet gs 1).bind (fun e => dictGet e ioId) = none →
      accelFor gs ioId = none) ∧
    (∀ gs gs' : List (Nat × List (Nat × Nat)), ∀ ioId : Nat,
      groupGet gs 1 = groupGet gs' 1 → groupGet gs 2 = groupGet gs' 2 →
      accelFor gs ioId = accelFor gs' ioId) := by
  rcases read_record_fields h with ⟨-, -, -, hx, hy, hz⟩
  exact ⟨⟨hx, hy, hz⟩,
    fun gs ioId v hv => accelFor_pref2 hv,
    fun gs ioId v h2 h1 => accelFor_fall1 h2 h1,
    fun gs ioId h2 h1 => accelFor_absent h2 h1,
    fun gs gs' ioId h1 h2 => accelFor_congr ioId h1 h2⟩

/-- Witness for C6 at `bufAccel`, where id `0x0011` is present in both the
1-byte and 2-byte groups and the decoded x-axis takes the 2-byte group's
value reinterpreted as signed 16-bit. -/
theorem claim_C6_witness :
    recAccel.accelX = some (toSignedInt 0x8000 16) := by
  have h := claim_C6 bufAccel 0 recAccel (by decide)
  rw [h.1.1]
  exact h.2.1 (recGroups bufAccel 0) 0x0011 0x8000 (by decide)

/-- C7: within a segment the cursor of `parse_avl_data`'s scan loop is
strictly increasing across iterations (on failure it moves to the located
offset plus one, on success at least that far), so each per-segment scan
terminates; and after a failed decode the loop continues scanning the same
segment one byte past the located offset, so a corrupted frame does not
prevent decoding of a later valid frame. -/
theorem claim_C7 (segment : List Nat) (pos : Nat) :
    (∀ p, nextCursor segment pos = some p → pos < p) ∧
    (∀ fuel o, pos < segment.length →
      find_timestamp_offset segment pos = some o →
      ((read_record segment o).1 = none →
        parseLoop segment pos (fuel + 1) = parseLoop segment (o + 1) fuel) ∧
      (∀ r, (read_record segment o).1 = some r →
        parseLoop segment pos (fuel + 1) =
          r :: parseLoop segment (max (read_record segment o).2 (o + 1)) fuel)) := by
  constructor
  · intro p hp
    unfold nextCursor at hp
    split at hp
    next => exact Option.noConfusion hp
    next o hf =>
      have hso := (find_some_spec hf).1
      split at hp
      next np hr =>
        have hpe : p = o + 1 := (Option.some.inj hp).symm
        omega
      next r np hr =>
        have hpe : p = max np (o + 1) := (Option.some.inj hp).symm
        have hle := le_max_right np (o + 1)
        omega
  · intro fuel o hpos hf
    constructor
    · intro hn
      simp only [parseLoop, if_pos hpos, hf]
      rcases hr : read_record segment o with ⟨orec, np⟩
      rw [hr] at hn
      have ho : orec = none := by simpa using hn
      subst ho
      rfl
    · intro r hs
      simp only [parseLoop, if_pos hpos, hf]
      rcases hr : read_record segment o with ⟨orec, np⟩
      rw [hr] at hs
      have ho : orec = some r := by simpa using hs
      subst ho
      rfl

/-- Witness for C7 at `buf25`, where the locator returns offset 0, the
decoder fails there, the cursor advances from 0 to 1, and the loop
continues at offset 1. -/
theorem claim_C7_witness :
    (0 : Nat) < 1 ∧ parseLoop buf25 0 25 = parseLoop buf25 1 24 :=
  ⟨(claim_C7 buf25 0).1 1 (by decide),
   ((claim_C7 buf25 0).2 24 0 (by decide) (by decide)).1 (by decide)⟩

/-- C8: `_to_signed_int` reinterprets an unsigned value via
two's-complement at the declared bit width: for every value and every
positive width the result is `v - 2^b` when `v ≥ 2^(b-1)` and `v`
otherwise; in particular a 16-bit field with raw value `0x8000` decodes to
`-32768` and `0x7FFF` to `32767` (also through the byte-level
`_to_signed`). -/
theorem claim_C8 :
    (∀ v b : Nat, 1 ≤ b →
      toSignedInt v b =
        if 2 ^ (b - 1) ≤ v then (v : Int) - 2 ^ b else (v : Int)) ∧
    toSigned [0x80, 0x00] 16 = -32768 ∧
    toSigned [0x7F, 0xFF] 16 = 32767 ∧
    toSignedInt 0x8000 16 = -32768 ∧
    toSignedInt 0x7FFF 16 = 32767 := by
  refine ⟨?_, by decide, by decide, by decide, by decide⟩
  intro v b hb
  have hiff : (2 : Int) ^ (b - 1) ≤ (v : Int) ↔ 2 ^ (b - 1) ≤ v := by
    exact_mod_cast Iff.rfl
  simp only [toSignedInt, ge_iff_le]
  rw [if_congr hiff rfl rfl]

/-- Witness for C8 at value 40000, width 16 (above the sign threshold). -/
theorem claim_C8_witness :
    toSignedInt 40000 16 =
      if 2 ^ (16 - 1) ≤ 40000 then ((40000 : Nat) : Int) - 2 ^ 16
      else ((40000 : Nat) : Int) :=
  claim_C8.1 40000 16 (by decide)

/-- C9: `iter_segments` yields nothing on the empty string and on strings
that are exactly the delimiter (in either case); every fragment with an
odd number of hex digits is truncated by exactly one trailing digit before
byte conversion; and a fragment with invalid hex digits is silently
dropped while later fragments are still yielded. -/
theorem claim_C9 :
    iter_segments [] = [] ∧
    iter_segments ("59D90010".toList) = [] ∧
    iter_segments ("59d90010".toList) = [] ∧
    (∀ part : List Char, part.length % 2 = 1 →
      processFragment part = fromHex part.dropLast) ∧
    iter_segments ("GG59D90010AB".toList) = [[0xAB]] := by
  refine ⟨by decide, by decide, by decide, ?_, by decide⟩
  intro part hodd
  have hne : ¬ part = [] := by
    intro he
    subst he
    simp at hodd
  unfold processFragment
  rw [if_neg hne, if_pos (by omega)]

/-- Witness for C9's odd-fragment rule at the one-digit fragment `"A"`. -/
theorem claim_C9_witness :
    processFragment ('A' :: []) = fromHex (List.dropLast ('A' :: [])) :=
  claim_C9.2.2.2.1 ('A' :: []) (by decide)

/-- C10: `iter_segments` can yield an empty byte buffer from a non-empty
input: the input `"A"` (and a single digit between two delimiters) passes
the non-empty-fragment filter, is truncated to the empty string by the
odd-length rule, converts to zero bytes, and is still yielded. -/
theorem claim_C10 :
    iter_segments ('A' :: []) = [[]] ∧
    iter_segments ("59D90010A59D90010".toList) = [[]] ∧
    ([] : List Nat) ∈ iter_segments ('A' :: []) := by
  exact ⟨by decide, by decide, by decide⟩

end Teltonika
